import Mathlib

/-!
# LuaSL editor extension: completion catalog and provider

A shallow embedding of `vscode-extension/extension.js`.

* The three module-level arrays `KEYWORDS`, `TYPES`, `BUILTINS` are lists of
  strings, entry for entry in source order.
* `provideCompletionItems` keeps the shape of the source: a fresh local
  `items`, three `for ... of` loops that `push` one item per entry.
* `activate` and `deactivate` act on an explicit state made of the editor
  host's registered providers and the extension context's `subscriptions`.
  The host API (`registerCompletionItemProvider`, the disposal of the
  subscriptions) is the environment of the program and is modelled after the
  editor's documented behaviour.
* Deactivating the extension is the host's sequence `deactivateExtension`:
  the exported `deactivate()` first, then the disposal of the subscriptions.
-/

set_option autoImplicit false

namespace LuaSL

/-! ## Module constants -/

/-- The array `KEYWORDS` of the source, in source order. -/
def KEYWORDS : List String :=
  [ "let",
    "var",
    "function",
    "return",
    "struct",
    "uniform",
    "in",
    "out",
    "extern",
    "for",
    "do",
    "end",
    "if",
    "then",
    "else",
    "and",
    "or",
    "@fragment",
    "@vertex" ]

/-- The array `TYPES` of the source, in source order. -/
def TYPES : List String :=
  [ "float",
    "int",
    "bool",
    "vec2",
    "vec3",
    "vec4",
    "mat2",
    "mat3",
    "mat4",
    "sampler2D",
    "void" ]

/-- The array `BUILTINS` of the source, in source order. -/
def BUILTINS : List String :=
  [ "sin",
    "cos",
    "tan",
    "dot",
    "normalize",
    "length",
    "fract",
    "mix",
    "clamp",
    "smoothstep",
    "texture",
    "vec2",
    "vec3",
    "vec4" ]

/-! ## Host types used by the provider -/

/-- The host's enumeration `vscode.CompletionItemKind`. The source uses the
members `Keyword`, `TypeParameter` and `Function`. -/
inductive CompletionItemKind where
  | Text
  | Method
  | Function
  | Constructor
  | Field
  | Variable
  | Class
  | Interface
  | Module
  | Property
  | Unit
  | Value
  | Enum
  | Keyword
  | Snippet
  | Color
  | File
  | Reference
  | Folder
  | EnumMember
  | Constant
  | Struct
  | Event
  | Operator
  | TypeParameter
  | User
  | Issue
  deriving DecidableEq, Repr

/-- The result of `new vscode.CompletionItem(label, kind)`: the two
constructor arguments, every other field of the host class left unset. -/
structure CompletionItem where
  label : String
  kind : CompletionItemKind
  deriving DecidableEq, Repr

/-- The document the host passes as first argument of the callback. -/
structure TextDocument where
  uri : String
  languageId : String
  version : Nat
  text : String
  deriving DecidableEq, Repr

/-- The cursor position the host passes as second argument. -/
structure Position where
  line : Nat
  character : Nat
  deriving DecidableEq, Repr

/-- The cancellation token the host passes as third argument. -/
structure CancellationToken where
  isCancellationRequested : Bool
  deriving DecidableEq, Repr

/-- The trigger context the host passes as fourth argument. -/
structure CompletionContext where
  triggerKind : Nat
  triggerCharacter : Option String
  deriving DecidableEq, Repr

/-- JavaScript `items.push(x)`: append at the end. -/
def push {α : Type} (items : List α) (x : α) : List α :=
  items ++ [x]

/-- The method `provideCompletionItems()` of the provider object. The source
declares no parameter, so the four arguments the host passes are dropped.
`items` starts empty on each call and is filled by the three loops. -/
def provideCompletionItems (_document : TextDocument) (_position : Position)
    (_token : CancellationToken) (_context : CompletionContext) : List CompletionItem :=
  let items : List CompletionItem := []
  let items := KEYWORDS.foldl
    (fun items k => push items (CompletionItem.mk k CompletionItemKind.Keyword)) items
  let items := TYPES.foldl
    (fun items t => push items (CompletionItem.mk t CompletionItemKind.TypeParameter)) items
  let items := BUILTINS.foldl
    (fun items b => push items (CompletionItem.mk b CompletionItemKind.Function)) items
  items

/-- The host's view of a provider object: something with a
`provideCompletionItems` method. -/
structure CompletionItemProvider where
  provideCompletionItems :
    TextDocument → Position → CancellationToken → CompletionContext → List CompletionItem

/-- The object literal `provider` built in `activate`. -/
def provider : CompletionItemProvider :=
  { provideCompletionItems := provideCompletionItems }

/-- One host call of the callback: the four arguments the host passes. -/
structure Invocation where
  document : TextDocument
  position : Position
  token : CancellationToken
  context : CompletionContext
  deriving DecidableEq, Repr

/-- The results of a history of host calls, oldest first. The callback keeps
no state between calls: `items` is local and the three arrays are only read. -/
def callHistory (calls : List Invocation) : List (List CompletionItem) :=
  calls.map (fun i => provideCompletionItems i.document i.position i.token i.context)

/-! ## Host state, activation and deactivation -/

/-- A language selector such as the literal `{ language: "luasl" }`. -/
structure DocumentFilter where
  language : String
  deriving DecidableEq, Repr

/-- The disposable the host returns from a registration: disposing it
unregisters the binding that carries the same handle. -/
structure Disposable where
  handle : Nat
  deriving DecidableEq, Repr

/-- A provider binding held by the host. -/
structure Registration where
  handle : Nat
  selector : DocumentFilter
  provider : CompletionItemProvider

/-- The host side of the state: the bindings currently registered, and the
number of registrations performed so far, which is also the next handle. -/
structure Host where
  registrations : List Registration
  nextHandle : Nat

/-- The `context` object handed to `activate`; the source touches only its
`subscriptions` array. -/
structure ExtensionContext where
  subscriptions : List Disposable
  deriving DecidableEq, Repr

/-- The explicit state `activate` and `deactivate` run over. -/
structure World where
  host : Host
  context : ExtensionContext

/-- A JavaScript exception escaping a call. -/
inductive JsError where
  | thrown (message : String)
  deriving DecidableEq, Repr

/-- Host call `vscode.languages.registerCompletionItemProvider(selector, provider)`:
records one more binding under a new handle and returns its disposable. -/
def registerCompletionItemProvider (h : Host) (selector : DocumentFilter)
    (prov : CompletionItemProvider) : Except JsError (Host × Disposable) :=
  Except.ok
    ({ registrations := push h.registrations
          { handle := h.nextHandle, selector := selector, provider := prov },
       nextHandle := h.nextHandle + 1 },
     { handle := h.nextHandle })

/-- The function `activate(context)` of the source: register `provider` for
`{ language: "luasl" }`, then push the returned disposable onto
`context.subscriptions`. -/
def activate (w : World) : Except JsError World :=
  match registerCompletionItemProvider w.host { language := "luasl" } provider with
  | Except.error e => Except.error e
  | Except.ok (host, disposable) =>
    Except.ok
      { host := host,
        context := { subscriptions := push w.context.subscriptions disposable } }

/-- The function `deactivate()` of the source: an empty body. -/
def deactivate (w : World) : Except JsError World :=
  Except.ok w

/-- Host side of `dispose()` on a registration disposable: the bindings
carrying its handle are removed. -/
def Disposable.dispose (d : Disposable) (h : Host) : Host :=
  { h with registrations := h.registrations.filter (fun r => r.handle != d.handle) }

/-- Host side of unloading an extension, after `deactivate()` has returned:
every entry of `context.subscriptions` is disposed, in order. -/
def disposeSubscriptions (w : World) : World :=
  { w with host := w.context.subscriptions.foldl (fun h d => d.dispose h) w.host }

/-- Host side of deactivating an extension: the exported `deactivate()` is
called, and once it has returned the host disposes `context.subscriptions`.
An exception thrown by `deactivate()` would end the sequence. -/
def deactivateExtension (w : World) : Except JsError World :=
  match deactivate w with
  | Except.error e => Except.error e
  | Except.ok w1 => Except.ok (disposeSubscriptions w1)

/-- The binding `activate` creates when started from the host state `h`. -/
def activatedBinding (h : Host) : Registration :=
  { handle := h.nextHandle, selector := { language := "luasl" }, provider := provider }

/-- Number of occurrences of a label in a list of items. -/
def labelCount (l : String) (items : List CompletionItem) : Nat :=
  (items.map CompletionItem.label).count l

/-- A fixed invocation used for closed statements. -/
def Invocation.sample : Invocation :=
  { document := { uri := "file:///shader.luasl", languageId := "luasl", version := 1,
                  text := "let x = ve" },
    position := { line := 0, character := 10 },
    token := { isCancellationRequested := false },
    context := { triggerKind := 0, triggerCharacter := none } }

/-! ## Helper lemmas -/

theorem foldl_push_eq {α β : Type} (f : α → β) (xs : List α) (init : List β) :
    xs.foldl (fun items x => push items (f x)) init = init ++ xs.map f := by
  induction xs generalizing init with
  | nil => simp
  | cons x xs ih =>
    rw [List.foldl_cons, ih]
    simp [push]

theorem provideCompletionItems_eq (d : TextDocument) (p : Position)
    (t : CancellationToken) (c : CompletionContext) :
    provideCompletionItems d p t c =
      KEYWORDS.map (fun k => CompletionItem.mk k CompletionItemKind.Keyword)
        ++ TYPES.map (fun t => CompletionItem.mk t CompletionItemKind.TypeParameter)
        ++ BUILTINS.map (fun b => CompletionItem.mk b CompletionItemKind.Function) := by
  simp only [provideCompletionItems, foldl_push_eq, List.nil_append]

theorem dispose_foldl_registrations (subs : List Disposable) (h : Host) :
    (subs.foldl (fun h d => d.dispose h) h).registrations
      = h.registrations.filter (fun r => subs.all (fun d => r.handle != d.handle)) := by
  induction subs generalizing h with
  | nil => simp
  | cons d subs ih =>
    rw [List.foldl_cons, ih]
    simp [Disposable.dispose, List.filter_filter, Bool.and_comm]

theorem disposeSubscriptions_releases (w : World) (d : Disposable)
    (hd : d ∈ w.context.subscriptions) (r : Registration)
    (hr : r ∈ (disposeSubscriptions w).host.registrations) : r.handle ≠ d.handle := by
  simp only [disposeSubscriptions, dispose_foldl_registrations, List.mem_filter,
    List.all_eq_true] at hr
  simpa using hr.2 d hd

/-! ## Claims -/

/-- C1: every invocation returns the `KEYWORDS` entries as `Keyword` items,
then the `TYPES` entries as `TypeParameter` items, then the `BUILTINS`
entries as `Function` items, each list in source order and each label being
the list entry itself. -/
theorem C1_output_is_catalog_in_order (d : TextDocument) (p : Position)
    (t : CancellationToken) (c : CompletionContext) :
    provideCompletionItems d p t c =
      KEYWORDS.map (fun k => CompletionItem.mk k CompletionItemKind.Keyword)
        ++ (TYPES.map (fun t => CompletionItem.mk t CompletionItemKind.TypeParameter)
        ++ BUILTINS.map (fun b => CompletionItem.mk b CompletionItemKind.Function)) := by
  rw [provideCompletionItems_eq, List.append_assoc]

/-- C2: every invocation returns exactly
`len(KEYWORDS) + len(TYPES) + len(BUILTINS)` items, that is 19 + 11 + 14 = 44,
and the labels of the output are the three lists put end to end: nothing
dropped, nothing deduplicated, nothing added. -/
theorem C2_output_length (d : TextDocument) (p : Position)
    (t : CancellationToken) (c : CompletionContext) :
    (provideCompletionItems d p t c).length
        = KEYWORDS.length + TYPES.length + BUILTINS.length
      ∧ KEYWORDS.length = 19 ∧ TYPES.length = 11 ∧ BUILTINS.length = 14
      ∧ (provideCompletionItems d p t c).length = 44
      ∧ (provideCompletionItems d p t c).map CompletionItem.label
          = KEYWORDS ++ TYPES ++ BUILTINS := by
  rw [provideCompletionItems_eq]
  refine ⟨by simp [Nat.add_assoc], rfl, rfl, rfl, rfl, ?_⟩
  simp [List.map_append, List.map_map, Function.comp_def]

/-- C3: every returned item has a non-empty label, and its kind is the one of
a list its label occurs in: `Keyword` with `KEYWORDS`, `TypeParameter` with
`TYPES`, or `Function` with `BUILTINS`. -/
theorem C3_items_match_their_list (d : TextDocument) (p : Position)
    (t : CancellationToken) (c : CompletionContext) :
    ∀ it ∈ provideCompletionItems d p t c,
      it.label ≠ "" ∧
      ((it.label ∈ KEYWORDS ∧ it.kind = CompletionItemKind.Keyword)
        ∨ (it.label ∈ TYPES ∧ it.kind = CompletionItemKind.TypeParameter)
        ∨ (it.label ∈ BUILTINS ∧ it.kind = CompletionItemKind.Function)) := by
  rw [provideCompletionItems_eq]
  decide

/-- C3 at the item `vec3` of kind `Function` in the output of a sample call. -/
theorem C3_items_match_their_list_witness :
    CompletionItem.mk "vec3" CompletionItemKind.Function
        ∈ provideCompletionItems Invocation.sample.document Invocation.sample.position
            Invocation.sample.token Invocation.sample.context
      ∧ ("vec3" ≠ "" ∧
          (("vec3" ∈ KEYWORDS ∧ CompletionItemKind.Function = CompletionItemKind.Keyword)
            ∨ ("vec3" ∈ TYPES
                ∧ CompletionItemKind.Function = CompletionItemKind.TypeParameter)
            ∨ ("vec3" ∈ BUILTINS
                ∧ CompletionItemKind.Function = CompletionItemKind.Function))) :=
  ⟨by decide,
   C3_items_match_their_list Invocation.sample.document Invocation.sample.position
     Invocation.sample.token Invocation.sample.context
     (CompletionItem.mk "vec3" CompletionItemKind.Function) (by decide)⟩

/-- C4: the callback is deterministic and ignores its arguments: two calls
with any documents, positions, tokens and trigger contexts return the same
sequence, and in any history of calls every result is that same sequence. -/
theorem C4_independent_of_arguments_and_history
    (d1 d2 : TextDocument) (p1 p2 : Position) (t1 t2 : CancellationToken)
    (c1 c2 : CompletionContext) (calls : List Invocation) :
    provideCompletionItems d1 p1 t1 c1 = provideCompletionItems d2 p2 t2 c2
      ∧ callHistory calls
          = List.replicate calls.length (provideCompletionItems d1 p1 t1 c1) := by
  refine ⟨rfl, ?_⟩
  induction calls with
  | nil => rfl
  | cons i calls ih =>
    simp only [callHistory, List.map_cons, List.length_cons, List.replicate_succ] at ih ⊢
    rw [ih]
    rfl

/-- C5: the output holds two items labelled `vec3` at different positions,
index 23 with kind `TypeParameter` (from `TYPES`) and index 42 with kind
`Function` (from `BUILTINS`); the two items differ and the label occurs
twice, so neither was removed. -/
theorem C5_vec3_twice (d : TextDocument) (p : Position)
    (t : CancellationToken) (c : CompletionContext) :
    (provideCompletionItems d p t c)[23]?
        = some (CompletionItem.mk "vec3" CompletionItemKind.TypeParameter)
      ∧ (provideCompletionItems d p t c)[42]?
        = some (CompletionItem.mk "vec3" CompletionItemKind.Function)
      ∧ CompletionItem.mk "vec3" CompletionItemKind.TypeParameter
        ≠ CompletionItem.mk "vec3" CompletionItemKind.Function
      ∧ TYPES[4]? = some "vec3" ∧ BUILTINS[12]? = some "vec3"
      ∧ labelCount "vec3" (provideCompletionItems d p t c) = 2 := by
  rw [provideCompletionItems_eq]
  decide

/-- C6: the output contains the item with label `if` and kind `Keyword`. -/
theorem C6_contains_if_keyword (d : TextDocument) (p : Position)
    (t : CancellationToken) (c : CompletionContext) :
    CompletionItem.mk "if" CompletionItemKind.Keyword ∈ provideCompletionItems d p t c := by
  rw [provideCompletionItems_eq]
  decide

/-- C7: the output contains the item with label `mix` and kind `Function`. -/
theorem C7_contains_mix_function (d : TextDocument) (p : Position)
    (t : CancellationToken) (c : CompletionContext) :
    CompletionItem.mk "mix" CompletionItemKind.Function ∈ provideCompletionItems d p t c := by
  rw [provideCompletionItems_eq]
  decide

/-- C8: from any host state, activating and then immediately deactivating
the extension raises no error and releases the binding `activate` registered.
`activate` succeeds and leaves that binding registered with its disposable in
`context.subscriptions`; the exported `deactivate()` returns normally without
touching the state; the deactivation as a whole, `deactivate()` followed by
the host's disposal of the subscriptions, ends without error in a state where
no binding carries the handle of that registration, the bindings left being
those of before that no earlier subscription disposes. -/
theorem C8_activate_then_deactivate_releases (w : World) :
    ∃ w1 w2, activate w = Except.ok w1
      ∧ activatedBinding w.host ∈ w1.host.registrations
      ∧ Disposable.mk (activatedBinding w.host).handle ∈ w1.context.subscriptions
      ∧ deactivate w1 = Except.ok w1
      ∧ (activate w).bind deactivateExtension = Except.ok w2
      ∧ (∀ r ∈ w2.host.registrations, r.handle ≠ (activatedBinding w.host).handle)
      ∧ activatedBinding w.host ∉ w2.host.registrations
      ∧ w2.host.registrations
          = w.host.registrations.filter
              (fun r => r.handle != w.host.nextHandle
                && w.context.subscriptions.all (fun d => r.handle != d.handle)) := by
  have hrel : ∀ r ∈ (disposeSubscriptions
      { host := { registrations := push w.host.registrations
                    { handle := w.host.nextHandle, selector := { language := "luasl" },
                      provider := provider },
                  nextHandle := w.host.nextHandle + 1 },
        context := { subscriptions :=
                      push w.context.subscriptions { handle := w.host.nextHandle } }
        : World }).host.registrations, r.handle ≠ w.host.nextHandle := by
    intro r hr
    exact disposeSubscriptions_releases _ (Disposable.mk w.host.nextHandle)
      (by simp [push]) r hr
  refine ⟨_, _, rfl, ?_, ?_, rfl, rfl, hrel, ?_, ?_⟩
  · simp [push, activatedBinding]
  · simp [push, activatedBinding]
  · intro hmem
    exact hrel _ hmem rfl
  · simp only [disposeSubscriptions, dispose_foldl_registrations, push, List.filter_append,
      List.all_append, List.all_cons, List.all_nil, Bool.and_true]
    simp [Bool.and_comm]

/-- C9: one call of `activate` succeeds and performs exactly one registration,
of `provider` under the selector `{ language: "luasl" }`: the host gains that
one binding and its registration count grows by one; `context.subscriptions`
gains exactly one element at its end, the disposable that registration
returned, and its earlier entries keep their values and order. -/
theorem C9_activate_effect (w : World) :
    ∃ w1 d, activate w = Except.ok w1
      ∧ registerCompletionItemProvider w.host { language := "luasl" } provider
          = Except.ok (w1.host, d)
      ∧ w1.host.registrations
          = w.host.registrations
              ++ [{ handle := w.host.nextHandle, selector := { language := "luasl" },
                    provider := provider }]
      ∧ w1.host.nextHandle = w.host.nextHandle + 1
      ∧ w1.context.subscriptions = w.context.subscriptions ++ [d]
      ∧ d = { handle := w.host.nextHandle } :=
  ⟨_, _, rfl, rfl, rfl, rfl, rfl, rfl⟩

/-- C10: no two positions of the output hold the same label and kind, each of
the three lists being duplicate-free; the labels occurring more than once are
exactly `vec2`, `vec3`, `vec4`, each twice, once as `TypeParameter` and once
as `Function`; the output has 41 distinct labels, and no entry of `KEYWORDS`
is in `TYPES` or `BUILTINS`. -/
theorem C10_duplicates_are_vec2_vec3_vec4 (d : TextDocument) (p : Position)
    (t : CancellationToken) (c : CompletionContext) :
    (provideCompletionItems d p t c).Nodup
      ∧ KEYWORDS.Nodup ∧ TYPES.Nodup ∧ BUILTINS.Nodup
      ∧ (∀ l : String, 1 < labelCount l (provideCompletionItems d p t c)
            ↔ (l = "vec2" ∨ l = "vec3" ∨ l = "vec4"))
      ∧ (∀ l ∈ ["vec2", "vec3", "vec4"],
            labelCount l (provideCompletionItems d p t c) = 2
            ∧ (provideCompletionItems d p t c).count
                (CompletionItem.mk l CompletionItemKind.TypeParameter) = 1
            ∧ (provideCompletionItems d p t c).count
                (CompletionItem.mk l CompletionItemKind.Function) = 1)
      ∧ ((provideCompletionItems d p t c).map CompletionItem.label).dedup.length = 41
      ∧ (∀ k ∈ KEYWORDS, k ∉ TYPES ∧ k ∉ BUILTINS) := by
  rw [provideCompletionItems_eq]
  refine ⟨by decide, by decide, by decide, by decide, ?_, by decide, by decide, by decide⟩
  intro l
  constructor
  · intro h
    have hmem : l ∈ (KEYWORDS.map (fun k => CompletionItem.mk k CompletionItemKind.Keyword)
        ++ TYPES.map (fun t => CompletionItem.mk t CompletionItemKind.TypeParameter)
        ++ BUILTINS.map (fun b => CompletionItem.mk b CompletionItemKind.Function)).map
          CompletionItem.label := by
      apply List.count_pos_iff.mp
      unfold labelCount at h
      omega
    revert h
    revert l
    decide
  · rintro (rfl | rfl | rfl) <;> decide

end LuaSL
